import Mathlib

/-!
# Verification of the STREM matching pipeline

A shallow embedding of the STREM source (a spatio-temporal regular-expression
matcher over perception streams) together with proofs about it.

Modelling conventions:
* Rust `f64` coordinates and scores are modelled by `ℚ`.  The code under
  scrutiny only compares, adds, subtracts, multiplies, divides, truncates and
  takes square roots of such values; `Rat.sqrt` stands in for `f64::sqrt`
  (no verified claim depends on a square-root value), and `ℚ` division by
  zero (which yields `0`) stands in for the IEEE-754 behaviour that the spec
  explicitly leaves unspecified.
* Rust `f64 as i64` casts (round toward zero) are modelled by `ratTrunc`;
  the saturation that Rust applies outside the `i64` range is not modelled,
  i.e. the model covers finite in-range values.
* A Rust `panic!` / `todo!` / `unimplemented!` is modelled as the `.error`
  case of `Except String`.
* Rust `HashMap`s are modelled as association lists whose lookup takes the
  first matching key.
-/

namespace Strem

/-- 2-D point, from `region.rs` (`Point { x: f64, y: f64 }`). -/
structure Point where
  x : ℚ
  y : ℚ
  deriving DecidableEq, Repr

/-- Rust's `as i64` cast on a finite in-range `f64`: round toward zero. -/
def ratTrunc (q : ℚ) : ℤ :=
  if 0 ≤ q then ⌊q⌋ else ⌈q⌉

/-- An axis-aligned region, from `region/aa.rs` (`aa::Region`). -/
structure AaRegion where
  min : Point
  max : Point
  deriving DecidableEq, Repr

namespace AaRegion

/-- `aa::Region::new`: build the corner representation from center and size. -/
def new (center : Point) (width height : ℚ) : AaRegion :=
  { min := ⟨center.x - width / 2, center.y - height / 2⟩
    max := ⟨center.x + width / 2, center.y + height / 2⟩ }

/-- `aa::Region::width`. -/
def width (r : AaRegion) : ℚ := r.max.x - r.min.x

/-- `aa::Region::height`. -/
def height (r : AaRegion) : ℚ := r.max.y - r.min.y

/-- `aa::Region::center`. -/
def center (r : AaRegion) : Point :=
  ⟨r.min.x + r.width / 2, r.min.y + r.height / 2⟩

/-- `aa::Region::intersects`: overlap test on the open rectangles, then the
corner coordinates of the returned box go through an `i64` cast
(`std::cmp::max(a.min.x as i64, b.min.x as i64) as f64`, etc.). -/
def intersects (a b : AaRegion) : Option AaRegion :=
  if a.min.x < b.max.x ∧ b.min.x < a.max.x ∧ a.min.y < b.max.y ∧ b.min.y < a.max.y then
    some
      { min := ⟨(Max.max (ratTrunc a.min.x) (ratTrunc b.min.x) : ℤ),
                (Max.max (ratTrunc a.min.y) (ratTrunc b.min.y) : ℤ)⟩
        max := ⟨(Min.min (ratTrunc a.max.x) (ratTrunc b.max.x) : ℤ),
                (Min.min (ratTrunc a.max.y) (ratTrunc b.max.y) : ℤ)⟩ }
  else
    none

end AaRegion

/-- An oriented region, from `region/oriented.rs` (`oriented::Region`). -/
structure OrientedRegion where
  tl : Point
  tr : Point
  br : Point
  bl : Point
  deriving DecidableEq, Repr

namespace OrientedRegion

/-- `oriented::Region::center`. -/
def center (r : OrientedRegion) : Point :=
  ⟨(r.tl.x + r.br.x) / 2, (r.tl.y + r.br.y) / 2⟩

/-- `oriented::Region::width` (`f64::sqrt` modelled by `Rat.sqrt`). -/
def width (r : OrientedRegion) : ℚ :=
  Rat.sqrt ((r.tr.x - r.tl.x) ^ 2 + (r.tr.y - r.tl.y) ^ 2)

/-- `oriented::Region::height` (`f64::sqrt` modelled by `Rat.sqrt`). -/
def height (r : OrientedRegion) : ℚ :=
  Rat.sqrt ((r.tl.x - r.bl.x) ^ 2 + (r.tl.y - r.bl.y) ^ 2)

/-- `oriented::Region::intersects` is `unimplemented!()`: it
unconditionally panics, which the embedding records as an error. -/
def intersects (_a _b : OrientedRegion) : Except String (Option OrientedRegion) :=
  .error "not implemented: support for intersection of oriented regions coming soon!"

end OrientedRegion

/-- A bounding box, from `bbox.rs` (`BoundingBox`). -/
inductive BoundingBox where
  | AxisAligned (region : AaRegion)
  | Oriented (region : OrientedRegion)
  deriving DecidableEq, Repr

namespace BoundingBox

/-- `BoundingBox::intersects` from `bbox.rs`.  AABB-AABB delegates to
`aa::Region::intersects`; OBB-OBB hits the `unimplemented!()` panic of
`oriented::Region::intersects`; mixed kinds return `None`. -/
def intersects (a b : BoundingBox) : Except String (Option BoundingBox) :=
  match a, b with
  | .AxisAligned ra, .AxisAligned rb => .ok ((ra.intersects rb).map .AxisAligned)
  | .AxisAligned _, .Oriented _ => .ok none
  | .Oriented ra, .Oriented rb =>
      match ra.intersects rb with
      | .error e => .error e
      | .ok r => .ok (r.map .Oriented)
  | .Oriented _, .AxisAligned _ => .ok none

/-- Center of either bounding-box kind, as matched inline in `s4m.rs`. -/
def center : BoundingBox → Point
  | .AxisAligned region => region.center
  | .Oriented region => region.center

end BoundingBox

/-- A labelled detection, from `detections.rs` (Rust name: `Annotation`). -/
structure Annot where
  label : String
  score : ℚ
  bbox : BoundingBox
  deriving DecidableEq, Repr

/-- `fn euclidean` from `s4m.rs`: center-point distance for every mix of
bounding-box kinds (the four arms collapse to one formula). -/
def euclidean (a b : BoundingBox) : Option ℚ :=
  some (Rat.sqrt ((b.center.x - a.center.x) ^ 2 + (b.center.y - a.center.y) ^ 2))

/-- First-match association-list lookup; model of `HashMap::get`. -/
def assocLookup {α : Type} (key : String) : List (String × α) → Option α
  | [] => none
  | (k, v) :: rest => if k = key then some v else assocLookup key rest

/-- The per-frame detection context `detections: HashMap<String, Vec<Annotation>>`. -/
abbrev Detections := List (String × List Annot)

/-- A binding table `HashMap<String, Annotation>` from enclosing quantifiers. -/
abbrev BindingTable := List (String × Annot)

/-! ## The spatial AST (`compiler/ir.rs`, `compiler/ir/ast.rs`, `compiler/ir/ops.rs`)

Rust defines a generic `Node<T>` whose operators (`Operator`) mention the
instance `SpatialFormula = Node<OperandKind>` (through the binding maps of
`Exists`/`Forall`).  Lean's mutual inductives cannot mix a parametric member
with a concrete instantiation of itself, so the embedding specialises:
`SpatialFormula` below is the (mutually defined) spatial instance, and a
separate generic `Node T` with the same three constructors serves the
symbolic AST of the matcher. -/

/-- Leaf operands, from `ast.rs` (`OperandKind`). -/
inductive OperandKind where
  | Symbol (label : String)
  | Number (num : ℚ)
  | Variable (name : String)
  deriving DecidableEq, Repr

/-- Counted-repetition ranges, from `ops.rs` (`RangeKind`). -/
inductive RangeKind where
  | Exactly (size : ℕ)
  | AtLeast (min : ℕ)
  | Between (min max : ℕ)
  deriving DecidableEq, Repr

/-- Regular-expression operators, from `ops.rs` (`RegexOperatorKind`). -/
inductive RegexOperatorKind where
  | KleeneStar
  | Concatenation
  | Alternation
  | Range (kind : RangeKind)
  deriving DecidableEq, Repr

/-- First-order-logic operators, from `ops.rs` (`FolOperatorKind`). -/
inductive FolOperatorKind where
  | Negation
  | Conjunction
  | Disjunction
  | LessThan
  | GreaterThan
  | LessThanEqualTo
  | GreaterThanEqualTo
  deriving DecidableEq, Repr

/-- S4m (metric) operators, from `ops.rs` (`S4mOperatorKind`). -/
inductive S4mOperatorKind where
  | Function (name : String)
  | Inverse
  | Addition
  | Subtraction
  | Multiplication
  | Division
  deriving DecidableEq, Repr

/-- S4 (region) operators, from `ops.rs` (`S4OperatorKind`). -/
inductive S4OperatorKind where
  | Intersection
  | Union
  | Complement
  deriving DecidableEq, Repr

mutual

/-- `SpatialFormula = Node<OperandKind>` from `ast.rs`/`ir.rs`. -/
inductive SpatialFormula where
  | Operand (op : OperandKind)
  | UnaryExpr (op : Operator) (child : SpatialFormula)
  | BinaryExpr (op : Operator) (lhs rhs : SpatialFormula)

/-- `Operator` from `ops.rs`. -/
inductive Operator where
  | RegexOperator (kind : RegexOperatorKind)
  | SpatialOperator (kind : SpatialOperatorKind)

/-- `SpatialOperatorKind` from `ops.rs` (the `SolOperator` variant carries no
formula and is never matched by the monitors; it is kept for shape). -/
inductive SpatialOperatorKind where
  | FolOperator (kind : FolOperatorKind)
  | S4uOperator (kind : S4uOperatorKind)
  | S4mOperator (kind : S4mOperatorKind)
  | S4Operator (kind : S4OperatorKind)

/-- `S4uOperatorKind` from `ops.rs`; the quantifier bindings
`HashMap<String, SpatialFormula>` are modelled as an association list in the
iteration order the Rust code happens to use for `t.iter()`. -/
inductive S4uOperatorKind where
  | NonEmpty
  | Exists (t : List (String × SpatialFormula))
  | Forall (t : List (String × SpatialFormula))

end

/-! ## The spatial monitors (`monitor/s4.rs`, `monitor/s4m.rs`, `monitor/s4u.rs`) -/

/-- Sequence a fallible computation over a list, stopping at the first error;
models a Rust `for` loop pushing results where any iteration may panic. -/
def collectExcept {α β : Type} (f : α → Except String β) : List α → Except String (List β)
  | [] => .ok []
  | a :: rest =>
    match f a with
    | .error e => .error e
    | .ok b =>
      match collectExcept f rest with
      | .error e => .error e
      | .ok bs => .ok (b :: bs)

/-- `itertools::multi_cartesian_product`, as used by the quantifier arms of
`s4u.rs`: all tuples drawing one element from each list, first list slowest.
Note that (as in itertools, and unlike the usual convention for a product of
zero factors) an empty family yields no tuples at all. -/
def multiCartesianProduct {α : Type} : List (List α) → List (List α)
  | [] => []
  | [xs] => xs.map fun x => [x]
  | xs :: ys :: rest =>
    xs.flatMap fun x => (multiCartesianProduct (ys :: rest)).map fun t => x :: t

/-- Inner loop of the `Intersection` arm of `s4::Monitor::evaluate`: one
left annotation against every right annotation, in iteration order; both
elements of every intersecting pair are emitted. -/
def rowIntersections (l : Annot) : List Annot → Except String (List Annot)
  | [] => .ok []
  | r :: rest =>
    match l.bbox.intersects r.bbox with
    | .error e => .error e
    | .ok res =>
      match rowIntersections l rest with
      | .error e => .error e
      | .ok tail => .ok ((if res.isSome then [l, r] else []) ++ tail)

/-- Outer loop of the `Intersection` arm of `s4::Monitor::evaluate`. -/
def intersectionPairs : List Annot → List Annot → Except String (List Annot)
  | [], _ => .ok []
  | l :: ls, rs =>
    match rowIntersections l rs with
    | .error e => .error e
    | .ok row =>
      match intersectionPairs ls rs with
      | .error e => .error e
      | .ok rest => .ok (row ++ rest)

/-- `s4::Monitor::evaluate` from `monitor/s4.rs`: region algebra to a list of
annotations.  Panics (`todo!()` for `Complement`, `panic!` for unsupported
operators) are `.error`. -/
def s4Evaluate (detections : Detections) (table : Option BindingTable) :
    SpatialFormula → Except String (List Annot)
  | .Operand (.Symbol label) =>
    match assocLookup label detections with
    | some annotations => .ok annotations
    | none => .ok []
  | .Operand (.Variable name) =>
    match table with
    | some t =>
      match assocLookup name t with
      | some a => .ok [a]
      | none => .ok []
    | none => .ok []
  | .Operand (.Number _) => .error "monitor: s4: operand: unsupported"
  | .UnaryExpr op _ =>
    match op with
    | .SpatialOperator (.S4Operator .Complement) => .error "monitor: s4: complement: todo"
    | _ => .error "monitor: s4: unrecognized unary operator"
  | .BinaryExpr op lhs rhs =>
    match s4Evaluate detections table lhs with
    | .error e => .error e
    | .ok l =>
      match s4Evaluate detections table rhs with
      | .error e => .error e
      | .ok r =>
        match op with
        | .SpatialOperator (.S4Operator .Intersection) =>
          if l.isEmpty || r.isEmpty then .ok [] else intersectionPairs l r
        | .SpatialOperator (.S4Operator .Union) => .ok (l ++ r)
        | _ => .error "monitor: s4: unknown binary operator"

/-- Area of either bounding-box kind, as matched inline in the `"area"` arm
of `s4m.rs`. -/
def bboxArea : BoundingBox → ℚ
  | .AxisAligned region => region.width * region.height
  | .Oriented region => region.width * region.height

/-- `s4m::Monitor::evaluate` from `monitor/s4m.rs`: metric algebra to a list
of scalars.  Binary arithmetic forms the Cartesian product of the two scalar
lists; unknown function names and unsupported operators panic (`.error`). -/
def s4mEvaluate (detections : Detections) (table : Option BindingTable) :
    SpatialFormula → Except String (List ℚ)
  | .Operand (.Number num) => .ok [num]
  | .Operand _ => .error "monitor: s4m: operand: unsupported"
  | .UnaryExpr op child =>
    match op with
    | .SpatialOperator (.S4mOperator .Inverse) =>
      match s4mEvaluate detections table child with
      | .error e => .error e
      | .ok res => .ok (res.map fun x => -x)
    | .SpatialOperator (.S4mOperator (.Function name)) =>
      match name with
      | "x" =>
        match s4Evaluate detections table child with
        | .error e => .error e
        | .ok annotations => .ok (annotations.map fun a => a.bbox.center.x)
      | "y" =>
        match s4Evaluate detections table child with
        | .error e => .error e
        | .ok annotations => .ok (annotations.map fun a => a.bbox.center.y)
      | "dist" =>
        match s4Evaluate detections table child with
        | .error e => .error e
        | .ok annotations =>
          .ok (annotations.map fun a => Rat.sqrt (a.bbox.center.x ^ 2 + a.bbox.center.y ^ 2))
      | "area" =>
        match s4Evaluate detections table child with
        | .error e => .error e
        | .ok annotations => .ok (annotations.map fun a => bboxArea a.bbox)
      | _ => .error "monitor: s4m: unary: operator: function not supported"
    | _ => .error "monitor: s4m: unary: operator: unsupported"
  | .BinaryExpr op lhs rhs =>
    match op with
    | .SpatialOperator (.S4mOperator .Addition) =>
      match s4mEvaluate detections table lhs with
      | .error e => .error e
      | .ok l =>
        match s4mEvaluate detections table rhs with
        | .error e => .error e
        | .ok r => .ok (l.flatMap fun x => r.map fun y => x + y)
    | .SpatialOperator (.S4mOperator .Subtraction) =>
      match s4mEvaluate detections table lhs with
      | .error e => .error e
      | .ok l =>
        match s4mEvaluate detections table rhs with
        | .error e => .error e
        | .ok r => .ok (l.flatMap fun x => r.map fun y => x - y)
    | .SpatialOperator (.S4mOperator .Multiplication) =>
      match s4mEvaluate detections table lhs with
      | .error e => .error e
      | .ok l =>
        match s4mEvaluate detections table rhs with
        | .error e => .error e
        | .ok r => .ok (l.flatMap fun x => r.map fun y => x * y)
    | .SpatialOperator (.S4mOperator .Division) =>
      match s4mEvaluate detections table lhs with
      | .error e => .error e
      | .ok l =>
        match s4mEvaluate detections table rhs with
        | .error e => .error e
        | .ok r => .ok (l.flatMap fun x => r.map fun y => x / y)
    | .SpatialOperator (.S4mOperator (.Function name)) =>
      match name with
      | "dist" =>
        match s4Evaluate detections table lhs with
        | .error e => .error e
        | .ok l =>
          match s4Evaluate detections table rhs with
          | .error e => .error e
          | .ok r => .ok (l.flatMap fun a => r.filterMap fun b => euclidean a.bbox b.bbox)
      | _ => .error "monitor: s4m: binary: operator: function not supported"
    | _ => .error "monitor: s4m: binary: operator: unsupported"

/-- The per-variable valuation step shared by the `Exists` and `Forall` arms
of `s4u.rs`: for each binding `v := formula`, evaluate the formula as S4 and
tag every resulting annotation with `v`. -/
def bindingEntries (detections : Detections) (table : Option BindingTable)
    (t : List (String × SpatialFormula)) : Except String (List (List (String × Annot))) :=
  collectExcept
    (fun vf =>
      match s4Evaluate detections table vf.2 with
      | .error e => .error e
      | .ok annotations => .ok (annotations.map fun a => (vf.1, a)))
    t

/-- Building one quantifier lookup table in `s4u.rs`: a fresh `HashMap`
receives all entries of the parent table and then the tuple's entries, later
inserts shadowing earlier ones.  With first-match association-list lookup
this is the reversed tuple followed by the parent table. -/
def buildLookup (table : Option BindingTable) (entries : List (String × Annot)) : BindingTable :=
  entries.reverse ++ table.getD []

/-- The result aggregation of the `Exists` arm of `s4u.rs`:
`res.iter().any(|x| *x)` over the per-tuple outcomes (an error in any
iteration of the loop aborts it). -/
def existsOutcome : Except String (List Bool) → Except String Bool
  | .error e => .error e
  | .ok res => .ok (res.any id)

/-- The result aggregation of the `Forall` arm of `s4u.rs`:
`if res.is_empty() { return false; } res.iter().all(|x| *x)`. -/
def forallOutcome : Except String (List Bool) → Except String Bool
  | .error e => .error e
  | .ok res => .ok (if res.isEmpty then false else res.all id)

/-- `s4u::Monitor::evaluate` from `monitor/s4u.rs`: truth-valued evaluation
against one frame's detections.  Panics are `.error`. -/
def s4uEvaluate (detections : Detections) (table : Option BindingTable) :
    SpatialFormula → Except String Bool
  | .Operand (.Symbol label) => .ok (assocLookup label detections).isSome
  | .Operand _ => .error "monitor: s4u: operand: unsupported"
  | .UnaryExpr op child =>
    match op with
    | .SpatialOperator (.S4uOperator .NonEmpty) =>
      match s4Evaluate detections table child with
      | .error e => .error e
      | .ok annotations => .ok !annotations.isEmpty
    | .SpatialOperator (.S4uOperator (.Exists t)) =>
      match bindingEntries detections table t with
      | .error e => .error e
      | .ok bindings =>
        existsOutcome
          (collectExcept
            (fun entries => s4uEvaluate detections (some (buildLookup table entries)) child)
            (multiCartesianProduct bindings))
    | .SpatialOperator (.S4uOperator (.Forall t)) =>
      match bindingEntries detections table t with
      | .error e => .error e
      | .ok bindings =>
        forallOutcome
          (collectExcept
            (fun entries => s4uEvaluate detections (some (buildLookup table entries)) child)
            (multiCartesianProduct bindings))
    | .SpatialOperator (.FolOperator .Negation) =>
      match s4uEvaluate detections table child with
      | .error e => .error e
      | .ok res => .ok !res
    | .SpatialOperator (.FolOperator _) => .error "monitor: s4u: unrecognized unary FOL operator"
    | _ => .error "monitor: s4u: unrecognized unary operator"
  | .BinaryExpr op lhs rhs =>
    match op with
    | .SpatialOperator (.FolOperator .Conjunction) =>
      match s4uEvaluate detections table lhs with
      | .error e => .error e
      | .ok l =>
        match s4uEvaluate detections table rhs with
        | .error e => .error e
        | .ok r => .ok (l && r)
    | .SpatialOperator (.FolOperator .Disjunction) =>
      match s4uEvaluate detections table lhs with
      | .error e => .error e
      | .ok l =>
        match s4uEvaluate detections table rhs with
        | .error e => .error e
        | .ok r => .ok (l || r)
    | .SpatialOperator (.FolOperator .LessThan) =>
      match s4mEvaluate detections table lhs with
      | .error e => .error e
      | .ok l =>
        match s4mEvaluate detections table rhs with
        | .error e => .error e
        | .ok r => .ok (l.any fun a => r.any fun b => decide (a < b))
    | .SpatialOperator (.FolOperator .GreaterThan) =>
      match s4mEvaluate detections table lhs with
      | .error e => .error e
      | .ok l =>
        match s4mEvaluate detections table rhs with
        | .error e => .error e
        | .ok r => .ok (l.any fun a => r.any fun b => decide (a > b))
    | .SpatialOperator (.FolOperator .LessThanEqualTo) =>
      match s4mEvaluate detections table lhs with
      | .error e => .error e
      | .ok l =>
        match s4mEvaluate detections table rhs with
        | .error e => .error e
        | .ok r => .ok (l.any fun a => r.any fun b => decide (a ≤ b))
    | .SpatialOperator (.FolOperator .GreaterThanEqualTo) =>
      match s4mEvaluate detections table lhs with
      | .error e => .error e
      | .ok l =>
        match s4mEvaluate detections table rhs with
        | .error e => .error e
        | .ok r => .ok (l.any fun a => r.any fun b => decide (a ≥ b))
    | .SpatialOperator (.FolOperator _) => .error "monitor: unkown FOL operator"
    | _ => .error "monitor: unknown binary operator"

/-! ## The symbolic AST and the horizon (`matcher.rs`)

The symbolizer sources (`symbolizer/…`) are not part of the reviewed tree;
only the shape its output exposes to `matcher.rs` is needed: a tree of regex
operators over single-character leaves. -/

/-- The generic `Node<T>` of `compiler/ir.rs`, used at `T = SymbolicFormula`
by the matcher. -/
inductive Node (T : Type) where
  | Operand (t : T)
  | UnaryExpr (op : Operator) (child : Node T)
  | BinaryExpr (op : Operator) (lhs rhs : Node T)

/-- Modelled from the spec: a symbolic letter (`symbolizer/ast.rs` is not
under `src/`); `matcher.rs` reads only its `symbol` character. -/
structure SymbolicFormula where
  symbol : Char

/-- Modelled from the spec: the symbolizer's output tree
(`SymbolicAbstractSyntaxTree` with an optional root), as consumed by
`matcher::horizon` and `matcher::regexify`. -/
structure SymbolicAbstractSyntaxTree where
  root : Option (Node SymbolicFormula)

/-- `matcher::horizonit`: recursively compute the horizon of a regular
expression; `none` models the infinite horizon. -/
def horizonit {T : Type} : Node T → Option ℕ
  | .Operand _ => some 1
  | .UnaryExpr op child =>
    let ret := horizonit child
    match op with
    | .RegexOperator kind =>
      match kind with
      | .KleeneStar => none
      | .Range rkind =>
        match rkind with
        | .Exactly size =>
          match ret with
          | some ret => some (ret * size)
          | none => none
        | .AtLeast _ => none
        | .Between _ max =>
          match ret with
          | some ret => some (ret * max)
          | none => none
      | _ => none
    | _ => none
  | .BinaryExpr op lhs rhs =>
    let l := horizonit lhs
    let r := horizonit rhs
    match op with
    | .RegexOperator kind =>
      match kind with
      | .Concatenation =>
        match l, r with
        | some l, some r => some (l + r)
        | _, _ => none
      | .Alternation =>
        match l, r with
        | some l, some r => some (Max.max l r)
        | _, _ => none
      | _ => none
    | _ => none

/-- `matcher::horizon`: horizon of a symbolic AST (of its root, if any). -/
def horizon (ast : SymbolicAbstractSyntaxTree) : Option ℕ :=
  match ast.root with
  | some root => horizonit root
  | none => none

/-! ## Frames, the data stream and the drivers (`datastream.rs`, `controller.rs`) -/

/-- A per-channel detection record, from `detections.rs` (`DetectionRecord`;
the optional image metadata is irrelevant to every claim and carried as the
plain payload the importer constructs). -/
structure DetectionRecord where
  channel : String
  imagePath : Option String
  imageWidth : ℕ
  imageHeight : ℕ
  annotations : List (String × List Annot)
  deriving DecidableEq, Repr

/-- Modelled from the spec: one temporal slice of perception data
(`datastream/frame.rs` is not under `src/`): a monotonic external `index`
and the per-channel detection records.  Only the fields the reviewed code
touches are modelled: `Frame::new(index)`, `frame.samples.push(..)`,
`frame.index`. -/
structure Frame where
  index : ℕ
  samples : List DetectionRecord
  deriving DecidableEq, Repr

/-- A match interval, from `matcher.rs` (`Match`): half-open `[start, end)`. -/
structure MatchInterval where
  start : ℕ
  stop : ℕ
  deriving DecidableEq, Repr

/-- The in-memory part of `DataStream` from `datastream.rs`: the frame
buffer and the optional capacity.  (The `serde` stream handle is the
driver's input source and is modelled as explicit input below.) -/
structure DataStreamBuf where
  frames : List Frame
  capacity : Option ℕ
  deriving DecidableEq, Repr

namespace DataStreamBuf

/-- `DataStream::insert`: insert a frame at `index`
(`Vec::insert`, which panics when `index > len`). -/
def insert (s : DataStreamBuf) (index : ℕ) (frame : Frame) : Except String DataStreamBuf :=
  if index ≤ s.frames.length then
    .ok { s with frames := s.frames.take index ++ frame :: s.frames.drop index }
  else
    .error "insertion index out of bounds"

/-- `DataStream::append`: insert at the end of the buffer. -/
def append (s : DataStreamBuf) (frame : Frame) : Except String DataStreamBuf :=
  s.insert s.frames.length frame

end DataStreamBuf

/-- The buffering step of `Controller::online` (`controller.rs` lines
183–197): with a capacity set and the buffer full, `frames.remove(0)` evicts
the least recent frame (panicking on an empty buffer, which happens exactly
when the capacity is zero), and then the frame is appended. -/
def onlineBufferAppend (s : DataStreamBuf) (frame : Frame) : Except String DataStreamBuf :=
  match s.capacity with
  | some capacity =>
    if s.frames.length ≥ capacity then
      match s.frames with
      | [] => .error "removal index should be less than length"
      | _ :: rest => DataStreamBuf.append { s with frames := rest } frame
    else
      DataStreamBuf.append s frame
  | none => DataStreamBuf.append s frame

/-- The limit test of both drivers: `if let Some(limit) = self.config.limit
{ if count > limit { break; } }`. -/
def limitExceeded (limit : Option ℕ) (count : ℕ) : Bool :=
  match limit with
  | some l => decide (count > l)
  | none => false

/-- The Rust slice `frames[a..b]` of the emission callbacks, modelled
totally (`(take b).drop a`); where Rust would panic on a malformed range the
model yields a shorter run, which only over-approximates the emissions. -/
def sliceFrames (frames : List Frame) (a b : ℕ) : List Frame :=
  (frames.take b).drop a

/-- The search loop of `Controller::offline` (`controller.rs` lines
99–135).  `leftmost` abstracts the matcher built from the compiled pattern
(`matcher/offline.rs` is not under `src/`); the theorems quantify over it.
The loop is driven by explicit fuel because a `leftmost` that kept
returning a match with `end = 0` would keep the Rust loop running forever
as well; exhausted fuel truncates the run.  Returns the emitted matches
(the callback invocations) and the final status (`true` = match found). -/
def offlineLoop (leftmost : List Frame → Except String (Option MatchInterval))
    (limit : Option ℕ) (frames : List Frame) :
    ℕ → ℕ → ℕ → Bool → List (List Frame) → List (List Frame) × Except String Bool
  | 0, _, _, status, emits => (emits, .ok status)
  | fuel + 1, offset, count, status, emits =>
    if offset < frames.length then
      match leftmost (frames.drop offset) with
      | .error e => (emits, .error e)
      | .ok (some m) =>
        let status := true
        let count := count + 1
        if limitExceeded limit count then
          (emits, .ok status)
        else
          offlineLoop leftmost limit frames fuel (offset + m.stop) count status
            (emits ++ [sliceFrames frames (offset + m.start) (offset + m.stop)])
      | .ok none => offlineLoop leftmost limit frames fuel (offset + 1) count status emits
    else
      (emits, .ok status)

/-- `Controller::offline`, after all frames have been loaded into the
buffer: run the search loop from offset 0 with no matches counted. -/
def offlineRun (leftmost : List Frame → Except String (Option MatchInterval))
    (limit : Option ℕ) (frames : List Frame) (fuel : ℕ) :
    List (List Frame) × Except String Bool :=
  offlineLoop leftmost limit frames fuel 0 0 false []

/-- The driver state of `Controller::online`: buffer, match counter,
status, and the matches emitted so far. -/
structure OnlineState where
  buf : DataStreamBuf
  count : ℕ
  status : Bool
  emits : List (List Frame)
  deriving Repr

/-- The inner `for frame in frames` loop of `Controller::online`
(`controller.rs` lines 182–225).  A `break` (limit exceeded) abandons the
rest of the chunk but lets the outer loop continue; a panic or a `?` error
(`some e` in the result) aborts the whole run. -/
def onlineChunkLoop (leftmost : List Frame → Except String (Option MatchInterval))
    (limit : Option ℕ) : List Frame → OnlineState → OnlineState × Option String
  | [], st => (st, none)
  | f :: rest, st =>
    match onlineBufferAppend st.buf f with
    | .error e => (st, some e)
    | .ok buf =>
      match leftmost buf.frames with
      | .error e => ({ st with buf := buf }, some e)
      | .ok none => onlineChunkLoop leftmost limit rest { st with buf := buf }
      | .ok (some m) =>
        let st := { st with buf := buf, status := true, count := st.count + 1 }
        if limitExceeded limit st.count then
          (st, none)
        else
          onlineChunkLoop leftmost limit rest
            { st with emits := st.emits ++ [sliceFrames buf.frames m.start m.stop] }

/-- The outer `while let Some(frames) = datastream.request(..)` loop of
`Controller::online`: the already-imported chunks the stream yields are the
explicit input. -/
def onlineRun (leftmost : List Frame → Except String (Option MatchInterval))
    (limit : Option ℕ) : List (List Frame) → OnlineState → OnlineState × Option String
  | [], st => (st, none)
  | chunk :: chunks, st =>
    match onlineChunkLoop leftmost limit chunk st with
    | (st, some e) => (st, some e)
    | (st, none) => onlineRun leftmost limit chunks st

/-- The initial online driver state: empty buffer with the capacity taken
from the pattern's horizon. -/
def onlineInit (capacity : Option ℕ) : OnlineState :=
  { buf := { frames := [], capacity := capacity }, count := 0, status := false, emits := [] }

/-! ## The importer (`datastream/io.rs`, `datastream/io/importer.rs`) -/

/-- `Configuration` from `config.rs` (`export` is a Lean keyword, hence the
field name `exportFlag`). -/
structure Configuration where
  pattern : String
  datastream : Option String
  online : Bool
  channels : Option (List String)
  limit : Option ℕ
  exportFlag : Bool
  quiet : Bool
  skip : Option ℕ
  deriving Repr

/-- Modelled from the spec: the crate version `env!("CARGO_PKG_VERSION")`
(the manifest is not under `src/`; no claim depends on the value). -/
def CARGO_PKG_VERSION : String := "0.1.0"

/-- `io::AxisAlignedRegion` (center/dimensions form) from `io.rs`. -/
structure IoAxisAlignedRegion where
  cx : ℚ
  cy : ℚ
  w : ℚ
  h : ℚ
  deriving DecidableEq, Repr

/-- `io::OrientedRegion` (center/dimensions/rotation form) from `io.rs`. -/
structure IoOrientedRegion where
  cx : ℚ
  cy : ℚ
  w : ℚ
  h : ℚ
  rotation : ℚ
  deriving DecidableEq, Repr

/-- `io::BoundingBox` from `io.rs`. -/
inductive IoBoundingBox where
  | AxisAligned (region : IoAxisAlignedRegion)
  | Oriented (region : IoOrientedRegion)
  deriving DecidableEq, Repr

/-- `io::Annotation` from `io.rs` (`class` is a Lean keyword, hence `cls`). -/
structure IoAnnot where
  cls : String
  score : ℚ
  bbox : IoBoundingBox
  deriving DecidableEq, Repr

/-- `io::Sample::ObjectDetection` from `io.rs`. -/
structure IoSample where
  channel : String
  imagePath : String
  imageWidth : ℕ
  imageHeight : ℕ
  annotations : List IoAnnot
  deriving DecidableEq, Repr

/-- `io::Frame` from `io.rs`. -/
structure IoFrame where
  index : ℕ
  samples : List IoSample
  deriving DecidableEq, Repr

/-- `io::DataStream` from `io.rs`: one deserialized document. -/
structure IoDataStream where
  version : String
  frames : List IoFrame
  deriving DecidableEq, Repr

/-- `oriented::Region::new` from `region/oriented.rs`, parametric in the
trigonometric functions (`f64::cos`/`f64::sin` have no exact rational
counterpart; every theorem quantifies over `cosF`/`sinF`). -/
def OrientedRegion.new (cosF sinF : ℚ → ℚ) (center : Point) (width height rotation : ℚ) :
    OrientedRegion :=
  let x := width / 2
  let y := height / 2
  { tl := ⟨center.x + ((-x * cosF rotation) - (-y * sinF rotation)),
           center.y + ((-x * sinF rotation) + (-y * cosF rotation))⟩
    tr := ⟨center.x + ((x * cosF rotation) - (-y * sinF rotation)),
           center.y + ((x * sinF rotation) + (-y * cosF rotation))⟩
    br := ⟨center.x + ((x * cosF rotation) - (y * sinF rotation)),
           center.y + ((x * sinF rotation) + (y * cosF rotation))⟩
    bl := ⟨center.x + ((-x * cosF rotation) - (y * sinF rotation)),
           center.y + ((-x * sinF rotation) + (y * cosF rotation))⟩ }

/-- The bounding-box conversion inside `Importer::import`. -/
def importBBox (cosF sinF : ℚ → ℚ) : IoBoundingBox → BoundingBox
  | .AxisAligned region =>
    .AxisAligned (AaRegion.new ⟨region.cx, region.cy⟩ region.w region.h)
  | .Oriented region =>
    .Oriented (OrientedRegion.new cosF sinF ⟨region.cx, region.cy⟩ region.w region.h
      region.rotation)

/-- `record.annotations.entry(class).or_default().push(a)`: append to the
existing entry of the key, or add a fresh singleton entry. -/
def entryPush (key : String) (a : Annot) : List (String × List Annot) → List (String × List Annot)
  | [] => [(key, [a])]
  | (k, annotations) :: rest =>
    if k = key then (k, annotations ++ [a]) :: rest else (k, annotations) :: entryPush key a rest

/-- Conversion of one `io::Sample` inside `Importer::import`; `none` when
the channel allowlist filters the sample out. -/
def importSample (cosF sinF : ℚ → ℚ) (config : Configuration) (s : IoSample) :
    Option DetectionRecord :=
  match config.channels with
  | some channels =>
    if s.channel ∈ channels then
      some
        { channel := s.channel
          imagePath := some s.imagePath
          imageWidth := s.imageWidth
          imageHeight := s.imageHeight
          annotations :=
            s.annotations.foldl
              (fun acc a => entryPush a.cls ⟨a.cls, a.score, importBBox cosF sinF a.bbox⟩ acc) [] }
    else
      none
  | none =>
    some
      { channel := s.channel
        imagePath := some s.imagePath
        imageWidth := s.imageWidth
        imageHeight := s.imageHeight
        annotations :=
          s.annotations.foldl
            (fun acc a => entryPush a.cls ⟨a.cls, a.score, importBBox cosF sinF a.bbox⟩ acc) [] }

/-- `Importer::import` from `importer.rs`.  `count` is the importer's skip
counter (`self.count`), threaded through; the version gate rejects a
document whose version differs from the advertised crate version before any
frame is built, and nothing after the gate can fail. -/
def importData (cosF sinF : ℚ → ℚ) (config : Configuration) (count : ℕ) (data : IoDataStream) :
    Except String (Option (List Frame) × ℕ) :=
  if data.version ≠ CARGO_PKG_VERSION then
    .error "importer: stremf: mismatched version"
  else
    let step := fun (acc : List Frame × ℕ) (f : IoFrame) =>
      match config.skip with
      | some skip =>
        if acc.2 < skip then
          (acc.1, acc.2 + 1)
        else
          (acc.1 ++ [{ index := f.index,
                       samples := f.samples.filterMap (importSample cosF sinF config) }], acc.2)
      | none =>
        (acc.1 ++ [{ index := f.index,
                     samples := f.samples.filterMap (importSample cosF sinF config) }], acc.2)
    let out := data.frames.foldl step ([], count)
    .ok (some out.1, out.2)

/-! ## The printer (`bin/strem/app/printer.rs`) -/

/-- `Printer::delimit`: append the `:` separator to a non-empty message. -/
def delimit (msg : String) : String :=
  if !msg.isEmpty then msg ++ ":" else msg

/-- `Printer::print`, with terminal coloring (which the spec leaves
optional) dropped and the serde/`DataExporter` JSON line abstracted as
`exportJson` (the on-disk schema is outside the covered core).  Returns the
printed line, `none` when nothing is printed; `frames.first().unwrap()` on
an empty match is the panic case. -/
def printMatch (exportJson : List Frame → String) (frames : List Frame)
    (config : Configuration) : Except String (Option String) :=
  if config.quiet then
    .ok none
  else
    let msg := ""
    let msg :=
      match config.datastream with
      | some path => delimit msg ++ path
      | none => msg
    match frames.head?, frames.getLast? with
    | some first, some last =>
      let start := first.index
      let stop := last.index + 1
      let msg := delimit msg ++ toString start ++ ".." ++ toString stop
      let msg := if config.exportFlag then delimit "" ++ exportJson frames else msg
      if !msg.isEmpty then .ok (some msg) else .ok none
    | _, _ => .error "called Option unwrap on a None value"

/-! ## Concrete inputs used by witnesses and counterexamples -/

/-- A sample annotation: a unit-score car with a 2×2 box at the origin. -/
def annotEx : Annot := ⟨"car", 1, .AxisAligned ⟨⟨0, 0⟩, ⟨2, 2⟩⟩⟩

/-- A detections map holding one car annotation. -/
def detectionsEx : Detections := [("car", [annotEx])]

/-- A detections map with an entry for `"car"` but no annotations under it. -/
def detectionsEmptyEx : Detections := [("car", [])]

/-- One quantifier binding `v := [:car:]`. -/
def quantBindingsEx : List (String × SpatialFormula) := [("v", .Operand (.Symbol "car"))]

/-- The formula `A(v := [:car:]) [:car:]`. -/
def forallEx : SpatialFormula :=
  .UnaryExpr (.SpatialOperator (.S4uOperator (.Forall quantBindingsEx))) (.Operand (.Symbol "car"))

/-- Frames with indices 0 and 1 (no samples; the buffer logic never reads
them). -/
def frame0Ex : Frame := ⟨0, []⟩

/-- See `frame0Ex`. -/
def frame1Ex : Frame := ⟨1, []⟩

/-- A region whose min corner has fractional coordinates. -/
def regAEx : AaRegion := ⟨⟨1/2, 1/2⟩, ⟨5/2, 5/2⟩⟩

/-- A region with integral corners overlapping `regAEx`. -/
def regBEx : AaRegion := ⟨⟨0, 0⟩, ⟨2, 2⟩⟩

/-- A configuration with `--export` set and an input path. -/
def cfgExportEx : Configuration :=
  { pattern := "[:car:]", datastream := some "input.json", online := false, channels := none
    limit := none, exportFlag := true, quiet := false, skip := none }

/-- The same configuration without `--export`. -/
def cfgPlainEx : Configuration := { cfgExportEx with exportFlag := false }

/-! ## Helper lemmas -/

theorem ratTrunc_mono {x y : ℚ} (h : x ≤ y) : ratTrunc x ≤ ratTrunc y := by
  unfold ratTrunc
  by_cases hx : 0 ≤ x
  · rw [if_pos hx, if_pos (le_trans hx h)]
    exact Int.floor_le_floor h
  · by_cases hy : 0 ≤ y
    · rw [if_neg hx, if_pos hy]
      exact le_trans (Int.ceil_le.mpr (by exact_mod_cast (not_le.mp hx).le))
        (Int.le_floor.mpr (by exact_mod_cast hy))
    · rw [if_neg hx, if_neg hy]
      exact Int.ceil_le_ceil h

theorem ratTrunc_monotone : Monotone ratTrunc := fun _ _ h => ratTrunc_mono h

theorem ratTrunc_max (x y : ℚ) :
    ratTrunc (Max.max x y) = Max.max (ratTrunc x) (ratTrunc y) :=
  ratTrunc_monotone.map_max

theorem ratTrunc_min (x y : ℚ) :
    ratTrunc (Min.min x y) = Min.min (ratTrunc x) (ratTrunc y) :=
  ratTrunc_monotone.map_min

theorem floor_half_rat : ⌊(1 / 2 : ℚ)⌋ = 0 := by
  norm_num [Int.floor_eq_zero_iff, Set.mem_Ico]

theorem floor_five_halves_rat : ⌊(5 / 2 : ℚ)⌋ = 2 := by
  rw [Int.floor_eq_iff]
  norm_num

/-- Evaluation of `aa::Region::intersects` on the concrete pair
`regAEx`/`regBEx`: the fractional min corner is truncated to the origin. -/
theorem intersects_regEx : AaRegion.intersects regAEx regBEx = some ⟨⟨0, 0⟩, ⟨2, 2⟩⟩ := by
  rw [AaRegion.intersects, if_pos]
  · norm_num [regAEx, regBEx, ratTrunc, floor_half_rat, floor_five_halves_rat]
  · refine ⟨?_, ?_, ?_, ?_⟩ <;> norm_num [regAEx, regBEx]

/-! ## Claims -/

/-- **C7.** `aa::Region::intersects` returns `Some` exactly when the open
rectangles overlap (all four strict comparisons hold), and `None`
otherwise. -/
theorem aa_intersects_iff_open_overlap (a b : AaRegion) :
    (AaRegion.intersects a b).isSome ↔
      (a.min.x < b.max.x ∧ b.min.x < a.max.x ∧ a.min.y < b.max.y ∧ b.min.y < a.max.y) := by
  unfold AaRegion.intersects
  split_ifs with h <;> simp [h]

/-- **C10.** On overlap (of well-formed regions), the returned corners are
the `i64` truncations of the exact intersection corners — max of the mins
and min of the maxes, cast through `ℤ` back to the coordinate field — hence
whole numbers in the right order; and for at least one input the returned
box differs from the exact real-valued intersection. -/
theorem aa_intersects_truncates (a b : AaRegion) (r : AaRegion)
    (hax : a.min.x ≤ a.max.x) (hay : a.min.y ≤ a.max.y)
    (hbx : b.min.x ≤ b.max.x) (hby : b.min.y ≤ b.max.y)
    (hr : AaRegion.intersects a b = some r) :
    (r.min.x = ((ratTrunc (Max.max a.min.x b.min.x) : ℤ) : ℚ) ∧
      r.min.y = ((ratTrunc (Max.max a.min.y b.min.y) : ℤ) : ℚ) ∧
      r.max.x = ((ratTrunc (Min.min a.max.x b.max.x) : ℤ) : ℚ) ∧
      r.max.y = ((ratTrunc (Min.min a.max.y b.max.y) : ℤ) : ℚ)) ∧
    ((∃ z : ℤ, r.min.x = (z : ℚ)) ∧ (∃ z : ℤ, r.min.y = (z : ℚ)) ∧
      (∃ z : ℤ, r.max.x = (z : ℚ)) ∧ (∃ z : ℤ, r.max.y = (z : ℚ))) ∧
    (r.min.x ≤ r.max.x ∧ r.min.y ≤ r.max.y) ∧
    ((AaRegion.intersects regAEx regBEx).map AaRegion.min ≠
      some ⟨Max.max regAEx.min.x regBEx.min.x, Max.max regAEx.min.y regBEx.min.y⟩) := by
  unfold AaRegion.intersects at hr
  split_ifs at hr with h
  · obtain ⟨h1, h2, h3, h4⟩ := h
    obtain rfl := Option.some.inj hr
    refine ⟨⟨?_, ?_, ?_, ?_⟩, ⟨⟨_, rfl⟩, ⟨_, rfl⟩, ⟨_, rfl⟩, ⟨_, rfl⟩⟩, ⟨?_, ?_⟩, ?_⟩
    · rw [ratTrunc_max]
    · rw [ratTrunc_max]
    · rw [ratTrunc_min]
    · rw [ratTrunc_min]
    · have hx : Max.max a.min.x b.min.x ≤ Min.min a.max.x b.max.x := by
        rw [max_le_iff, le_min_iff, le_min_iff]
        exact ⟨⟨hax, le_of_lt h1⟩, ⟨le_of_lt h2, hbx⟩⟩
      have hm := ratTrunc_mono hx
      rw [ratTrunc_max, ratTrunc_min] at hm
      show ((Max.max (ratTrunc a.min.x) (ratTrunc b.min.x) : ℤ) : ℚ) ≤
        ((Min.min (ratTrunc a.max.x) (ratTrunc b.max.x) : ℤ) : ℚ)
      exact_mod_cast hm
    · have hy : Max.max a.min.y b.min.y ≤ Min.min a.max.y b.max.y := by
        rw [max_le_iff, le_min_iff, le_min_iff]
        exact ⟨⟨hay, le_of_lt h3⟩, ⟨le_of_lt h4, hby⟩⟩
      have hm := ratTrunc_mono hy
      rw [ratTrunc_max, ratTrunc_min] at hm
      show ((Max.max (ratTrunc a.min.y) (ratTrunc b.min.y) : ℤ) : ℚ) ≤
        ((Min.min (ratTrunc a.max.y) (ratTrunc b.max.y) : ℤ) : ℚ)
      exact_mod_cast hm
    · rw [intersects_regEx]
      intro hcontra
      rw [Option.map_some'] at hcontra
      have hx0 := congrArg Point.x (Option.some.inj hcontra)
      norm_num [regAEx, regBEx, max_def] at hx0

/-- Witness for `aa_intersects_truncates` at the concrete overlapping pair
`regAEx`, `regBEx`. -/
theorem aa_intersects_truncates_witness :
    regAEx.min.x ≤ regAEx.max.x ∧ regAEx.min.y ≤ regAEx.max.y ∧
    regBEx.min.x ≤ regBEx.max.x ∧ regBEx.min.y ≤ regBEx.max.y ∧
    AaRegion.intersects regAEx regBEx = some ⟨⟨0, 0⟩, ⟨2, 2⟩⟩ ∧
    (AaRegion.mk ⟨0, 0⟩ ⟨2, 2⟩).min.x = ((ratTrunc (Max.max regAEx.min.x regBEx.min.x) : ℤ) : ℚ) :=
  ⟨by norm_num [regAEx], by norm_num [regAEx], by norm_num [regBEx], by norm_num [regBEx],
    intersects_regEx,
    (aa_intersects_truncates regAEx regBEx ⟨⟨0, 0⟩, ⟨2, 2⟩⟩ (by norm_num [regAEx])
        (by norm_num [regAEx]) (by norm_num [regBEx]) (by norm_num [regBEx])
        intersects_regEx).1.1⟩

/-- **C1 (counterexample).** A detections map may contain an entry with an
empty annotation list: `s4u` evaluation of the bare symbol then returns
true although no annotation is recorded under the label, refuting the
claim's "at least one annotation" reading. -/
theorem symbol_eval_counterexample :
    s4uEvaluate detectionsEmptyEx none (.Operand (.Symbol "car")) = .ok true ∧
    ∀ a : Annot, a ∉ (assocLookup "car" detectionsEmptyEx).getD [] := by
  refine ⟨rfl, ?_⟩
  intro a
  simp [detectionsEmptyEx, assocLookup]

/-- **C1 (amended).** `s4u::Monitor::evaluate` on a bare `Symbol(label)`
operand returns true if and only if the detections map contains an entry
recorded under that label (`detections.get(label).is_some()`), regardless
of whether that entry's annotation list is empty. -/
theorem symbol_eval_amended (detections : Detections) (table : Option BindingTable)
    (label : String) :
    s4uEvaluate detections table (.Operand (.Symbol label)) = .ok true ↔
      (assocLookup label detections).isSome := by
  simp [s4uEvaluate]

/-- **C9.** Evaluating an S4 formula whose root is a `Complement` node
fails (the `todo!()` panic) for every detections map, binding table and
child, and `oriented::Region::intersects` fails (the `unimplemented!()`
panic) for every pair of oriented boxes. -/
theorem complement_and_oriented_always_fail :
    (∀ (detections : Detections) (table : Option BindingTable) (child : SpatialFormula),
      ∃ e, s4Evaluate detections table
        (.UnaryExpr (.SpatialOperator (.S4Operator .Complement)) child) = .error e) ∧
    (∀ a b : OrientedRegion, ∃ e, OrientedRegion.intersects a b = .error e) :=
  ⟨fun _ _ _ => ⟨_, rfl⟩, fun _ _ => ⟨_, rfl⟩⟩

/-- **C3.** `matcher::horizon` / `horizonit` compute exactly the spec's
horizon recurrence: a leaf is 1; `KleeneStar` and `Range(AtLeast _)` are
infinite (`none`); `Range(Exactly n)` and `Range(Between _ m)` multiply the
child's horizon by `n` resp. `m`; `Concatenation` adds and `Alternation`
maximises, both strict in `none`; and an absent root has no horizon. -/
theorem horizon_matches_spec_recurrence :
    (∀ sf : SymbolicFormula, horizonit (Node.Operand sf) = some 1) ∧
    (∀ c : Node SymbolicFormula,
      horizonit (Node.UnaryExpr (.RegexOperator .KleeneStar) c) = none) ∧
    (∀ (n : ℕ) (c : Node SymbolicFormula),
      horizonit (Node.UnaryExpr (.RegexOperator (.Range (.AtLeast n))) c) = none) ∧
    (∀ (n : ℕ) (c : Node SymbolicFormula),
      horizonit (Node.UnaryExpr (.RegexOperator (.Range (.Exactly n))) c) =
        (horizonit c).map (fun h => h * n)) ∧
    (∀ (n m : ℕ) (c : Node SymbolicFormula),
      horizonit (Node.UnaryExpr (.RegexOperator (.Range (.Between n m))) c) =
        (horizonit c).map (fun h => h * m)) ∧
    (∀ l r : Node SymbolicFormula,
      horizonit (Node.BinaryExpr (.RegexOperator .Concatenation) l r) =
        match horizonit l, horizonit r with
        | some hl, some hr => some (hl + hr)
        | _, _ => none) ∧
    (∀ l r : Node SymbolicFormula,
      horizonit (Node.BinaryExpr (.RegexOperator .Alternation) l r) =
        match horizonit l, horizonit r with
        | some hl, some hr => some (Max.max hl hr)
        | _, _ => none) ∧
    (∀ root : Node SymbolicFormula, horizon ⟨some root⟩ = horizonit root) ∧
    horizon ⟨none⟩ = none := by
  refine ⟨fun _ => rfl, fun _ => rfl, fun _ _ => rfl, ?_, ?_, ?_, ?_, fun _ => rfl, rfl⟩
  · intro n c
    cases hc : horizonit c <;> simp [horizonit, hc]
  · intro n m c
    cases hc : horizonit c <;> simp [horizonit, hc]
  · intro l r
    cases hl : horizonit l <;> cases hr : horizonit r <;> simp [horizonit, hl, hr]
  · intro l r
    cases hl : horizonit l <;> cases hr : horizonit r <;> simp [horizonit, hl, hr]

theorem collectExcept_of_all_ok {α : Type} (f : α → Except String Bool) :
    ∀ L : List α, (∀ a ∈ L, f a = .ok true) →
      collectExcept f L = .ok (L.map fun _ => true) := by
  intro L
  induction L with
  | nil => intro _; rfl
  | cons a rest ih =>
    intro h
    have ha := h a (List.mem_cons_self ..)
    have hrest := ih fun x hx => h x (List.mem_cons_of_mem _ hx)
    simp [collectExcept, ha, hrest]

theorem collectExcept_ok_all {α : Type} {f : α → Except String Bool} :
    ∀ {L : List α} {res : List Bool}, collectExcept f L = .ok res → res.all id = true →
      ∀ a ∈ L, f a = .ok true := by
  intro L
  induction L with
  | nil => intro res _ _ a ha; cases ha
  | cons x rest ih =>
    intro res hc hall a ha
    rw [collectExcept] at hc
    cases hx : f x with
    | error e => rw [hx] at hc; cases hc
    | ok b =>
      rw [hx] at hc
      cases hrest : collectExcept f rest with
      | error e => rw [hrest] at hc; cases hc
      | ok bs =>
        rw [hrest] at hc
        obtain rfl := Except.ok.inj hc
        have hb : b = true ∧ bs.all id = true := by simpa [List.all_cons] using hall
        rcases List.mem_cons.mp ha with rfl | hmem
        · rw [hx, hb.1]
        · exact ih hrest hb.2 a hmem

theorem collectExcept_ok_length {α : Type} {f : α → Except String Bool} :
    ∀ {L : List α} {res : List Bool}, collectExcept f L = .ok res →
      res.length = L.length := by
  intro L
  induction L with
  | nil => intro res hc; obtain rfl := Except.ok.inj hc; rfl
  | cons x rest ih =>
    intro res hc
    rw [collectExcept] at hc
    cases hx : f x with
    | error e => rw [hx] at hc; cases hc
    | ok b =>
      rw [hx] at hc
      cases hrest : collectExcept f rest with
      | error e => rw [hrest] at hc; cases hc
      | ok bs =>
        rw [hrest] at hc
        obtain rfl := Except.ok.inj hc
        simp [ih hrest]

/-- The `Forall` loop of `s4u.rs`, run over any tuple list `L`, yields true
exactly when `L` is non-empty and the body yields true on every element. -/
theorem forallOutcome_eq_ok_true_iff {α : Type} (f : α → Except String Bool) (L : List α) :
    forallOutcome (collectExcept f L) = .ok true ↔
      (L ≠ [] ∧ ∀ a ∈ L, f a = .ok true) := by
  constructor
  · intro h
    cases hc : collectExcept f L with
    | error e => rw [hc, forallOutcome] at h; cases h
    | ok res =>
      rw [hc, forallOutcome] at h
      have h' := Except.ok.inj h
      by_cases he : res.isEmpty
      · rw [if_pos he] at h'; cases h'
      · rw [if_neg he] at h'
        refine ⟨?_, collectExcept_ok_all hc h'⟩
        intro hL
        subst hL
        obtain rfl := Except.ok.inj hc.symm
        exact he rfl
  · rintro ⟨hL, hall⟩
    rw [collectExcept_of_all_ok f L hall, forallOutcome]
    have hne : (L.map fun _ => true).isEmpty = false := by
      cases L with
      | nil => exact absurd rfl hL
      | cons _ _ => rfl
    rw [hne]
    simp

theorem mcp_eq_nil_of_mem_nil {α : Type} (l : List (List α)) (h : [] ∈ l) :
    multiCartesianProduct l = [] := by
  induction l with
  | nil => cases h
  | cons xs rest ih =>
    cases rest with
    | nil =>
      have hxs : xs = ([] : List α) := by simpa using h
      subst hxs
      rfl
    | cons ys rest' =>
      rcases List.mem_cons.mp h with h1 | h2
      · rw [← h1]
        simp [multiCartesianProduct]
      · simp [multiCartesianProduct, ih h2]

/-- **C2.** Given the per-variable S4 valuations (tagged with their
variable, in binding order), `Forall` evaluates to true iff the Cartesian
product of those valuations is non-empty and the child evaluates to true
under every tuple of the product; and whenever some binding's valuation is
empty (so the product is empty), the result is false.  (As in the
implementation's `multi_cartesian_product`, the product of an empty binding
family is itself empty; the parser always produces at least one binding.) -/
theorem forall_eval_characterization (detections : Detections) (table : Option BindingTable)
    (t : List (String × SpatialFormula)) (child : SpatialFormula)
    (bindings : List (List (String × Annot)))
    (hb : bindingEntries detections table t = .ok bindings) :
    (s4uEvaluate detections table
        (.UnaryExpr (.SpatialOperator (.S4uOperator (.Forall t))) child) = .ok true ↔
      (multiCartesianProduct bindings ≠ [] ∧
        ∀ entries ∈ multiCartesianProduct bindings,
          s4uEvaluate detections (some (buildLookup table entries)) child = .ok true)) ∧
    ((∃ b ∈ bindings, b = []) →
      s4uEvaluate detections table
        (.UnaryExpr (.SpatialOperator (.S4uOperator (.Forall t))) child) = .ok false) := by
  have hkey : s4uEvaluate detections table
      (.UnaryExpr (.SpatialOperator (.S4uOperator (.Forall t))) child) =
      forallOutcome
        (collectExcept
          (fun entries => s4uEvaluate detections (some (buildLookup table entries)) child)
          (multiCartesianProduct bindings)) := by
    rw [s4uEvaluate, hb]
  constructor
  · rw [hkey]
    exact forallOutcome_eq_ok_true_iff _ _
  · rintro ⟨b, hbmem, rfl⟩
    rw [hkey, mcp_eq_nil_of_mem_nil _ hbmem]
    rfl

/-- Witness for `forall_eval_characterization`: one binding `v := [:car:]`
over a detections map with a single car, child `[:car:]`. -/
theorem forall_eval_characterization_witness :
    bindingEntries detectionsEx none quantBindingsEx = .ok [[("v", annotEx)]] ∧
    ((s4uEvaluate detectionsEx none forallEx = .ok true ↔
        (multiCartesianProduct [[("v", annotEx)]] ≠ [] ∧
          ∀ entries ∈ multiCartesianProduct [[("v", annotEx)]],
            s4uEvaluate detectionsEx (some (buildLookup none entries))
              (.Operand (.Symbol "car")) = .ok true)) ∧
      ((∃ b ∈ [[("v", annotEx)]], b = []) →
        s4uEvaluate detectionsEx none forallEx = .ok false)) :=
  ⟨rfl, forall_eval_characterization detectionsEx none quantBindingsEx
    (.Operand (.Symbol "car")) [[("v", annotEx)]] rfl⟩

theorem append_eq_ok (s : DataStreamBuf) (f : Frame) :
    DataStreamBuf.append s f = .ok { s with frames := s.frames ++ [f] } := by
  unfold DataStreamBuf.append DataStreamBuf.insert
  rw [if_pos (le_refl _)]
  simp

/-- **C4.** With a capacity set, the controller's online append step keeps
the invariant: starting from a buffer within capacity, a successful append
evicts the front frame exactly when the buffer is full, the new length
never exceeds the capacity, and the surviving frames — and hence their
external indices — are an unchanged suffix of the old buffer plus the new
frame (no renumbering to buffer positions). -/
theorem online_append_respects_capacity (c : ℕ) (frames : List Frame) (f : Frame)
    (s' : DataStreamBuf) (hlen : frames.length ≤ c)
    (happend : onlineBufferAppend ⟨frames, some c⟩ f = .ok s') :
    s'.frames.length ≤ c ∧
    (frames.length = c → s'.frames = frames.tail ++ [f]) ∧
    s'.frames <:+ frames ++ [f] ∧
    s'.frames.map Frame.index <:+ (frames ++ [f]).map Frame.index ∧
    s'.capacity = some c := by
  rw [onlineBufferAppend] at happend
  dsimp only at happend
  by_cases hge : frames.length ≥ c
  · rw [if_pos hge] at happend
    cases frames with
    | nil => cases happend
    | cons x rest =>
      dsimp only at happend
      rw [append_eq_ok] at happend
      obtain rfl := (Except.ok.inj happend).symm
      have hlen' : rest.length + 1 ≤ c := by simpa using hlen
      refine ⟨by simpa using hlen', fun _ => rfl, ⟨[x], rfl⟩, ⟨[x.index], by simp⟩, rfl⟩
  · rw [if_neg hge] at happend
    rw [append_eq_ok] at happend
    obtain rfl := (Except.ok.inj happend).symm
    have hlt : frames.length < c := lt_of_not_ge hge
    refine ⟨by simpa using hlt, fun hc => absurd hc (Nat.ne_of_lt hlt), ⟨[], rfl⟩,
      ⟨[], rfl⟩, rfl⟩

/-- Witness for `online_append_respects_capacity`: a full one-slot buffer
holding frame 0 receives frame 1; frame 0 is evicted. -/
theorem online_append_respects_capacity_witness :
    ([frame0Ex] : List Frame).length ≤ 1 ∧
    onlineBufferAppend ⟨[frame0Ex], some 1⟩ frame1Ex = .ok ⟨[frame1Ex], some 1⟩ ∧
    ((DataStreamBuf.mk [frame1Ex] (some 1)).frames.length ≤ 1 ∧
      (([frame0Ex] : List Frame).length = 1 →
        (DataStreamBuf.mk [frame1Ex] (some 1)).frames = [frame0Ex].tail ++ [frame1Ex]) ∧
      (DataStreamBuf.mk [frame1Ex] (some 1)).frames <:+ [frame0Ex] ++ [frame1Ex] ∧
      (DataStreamBuf.mk [frame1Ex] (some 1)).frames.map Frame.index <:+
        ([frame0Ex] ++ [frame1Ex]).map Frame.index ∧
      (DataStreamBuf.mk [frame1Ex] (some 1)).capacity = some 1) :=
  ⟨by decide, rfl,
    online_append_respects_capacity 1 [frame0Ex] frame1Ex ⟨[frame1Ex], some 1⟩
      (by decide) rfl⟩

theorem offlineLoop_emits_le (leftmost : List Frame → Except String (Option MatchInterval))
    (N : ℕ) (frames : List Frame) :
    ∀ (fuel offset count : ℕ) (status : Bool) (emits : List (List Frame)),
      emits.length ≤ count → count ≤ N →
      ((offlineLoop leftmost (some N) frames fuel offset count status emits).1).length ≤ N := by
  intro fuel
  induction fuel with
  | zero =>
    intro offset count status emits h1 h2
    simpa [offlineLoop] using le_trans h1 h2
  | succ fuel ih =>
    intro offset count status emits h1 h2
    rw [offlineLoop]
    by_cases hoff : offset < frames.length
    · rw [if_pos hoff]
      cases hl : leftmost (frames.drop offset) with
      | error e => simpa using le_trans h1 h2
      | ok om =>
        cases om with
        | none => exact ih (offset + 1) count status emits h1 h2
        | some m =>
          dsimp only
          by_cases hlim : limitExceeded (some N) (count + 1) = true
          · rw [if_pos hlim]
            exact le_trans h1 h2
          · rw [if_neg hlim]
            have hcount : count + 1 ≤ N := by
              simpa [limitExceeded] using hlim
            exact ih (offset + m.stop) (count + 1) true
              (emits ++ [sliceFrames frames (offset + m.start) (offset + m.stop)])
              (by simpa using Nat.succ_le_succ h1) hcount
    · rw [if_neg hoff]
      exact le_trans h1 h2

theorem onlineChunkLoop_emits_le (leftmost : List Frame → Except String (Option MatchInterval))
    (N : ℕ) :
    ∀ (chunk : List Frame) (st : OnlineState),
      st.emits.length ≤ st.count → st.emits.length ≤ N →
      (((onlineChunkLoop leftmost (some N) chunk st).1).emits.length ≤
          ((onlineChunkLoop leftmost (some N) chunk st).1).count ∧
        ((onlineChunkLoop leftmost (some N) chunk st).1).emits.length ≤ N) := by
  intro chunk
  induction chunk with
  | nil =>
    intro st h1 h2
    exact ⟨h1, h2⟩
  | cons f rest ih =>
    intro st h1 h2
    rw [onlineChunkLoop]
    cases ha : onlineBufferAppend st.buf f with
    | error e => exact ⟨h1, h2⟩
    | ok buf =>
      dsimp only
      cases hl : leftmost buf.frames with
      | error e => exact ⟨h1, h2⟩
      | ok om =>
        cases om with
        | none => exact ih { st with buf := buf } h1 h2
        | some m =>
          dsimp only
          by_cases hlim : limitExceeded (some N) (st.count + 1) = true
          · rw [if_pos hlim]
            exact ⟨le_trans h1 (Nat.le_succ _), h2⟩
          · rw [if_neg hlim]
            have hcount : st.count + 1 ≤ N := by
              simpa [limitExceeded] using hlim
            exact ih _ (by simpa using Nat.succ_le_succ h1)
              (by simpa using le_trans (Nat.succ_le_succ h1) hcount)

theorem onlineRun_emits_le (leftmost : List Frame → Except String (Option MatchInterval))
    (N : ℕ) :
    ∀ (chunks : List (List Frame)) (st : OnlineState),
      st.emits.length ≤ st.count → st.emits.length ≤ N →
      ((onlineRun leftmost (some N) chunks st).1).emits.length ≤ N := by
  intro chunks
  induction chunks with
  | nil =>
    intro st _ h2
    exact h2
  | cons chunk rest ih =>
    intro st h1 h2
    rw [onlineRun]
    obtain ⟨h1', h2'⟩ := onlineChunkLoop_emits_le leftmost N chunk st h1 h2
    cases hc : onlineChunkLoop leftmost (some N) chunk st with
    | mk st' err =>
      rw [hc] at h1' h2'
      cases err with
      | some e => exact h2'
      | none => exact ih st' h1' h2'

/-- **C6.** With a configured limit `N`, both drivers invoke the match
callback at most `N` times across the whole run (so `N = 0` emits
nothing), whatever the matcher (`leftmost`), the input frames, the stream
chunking and the buffer capacity; the offline driver's `break` leaves the
loop entirely, the online driver's `break` merely stops emitting. -/
theorem drivers_respect_limit (leftmost : List Frame → Except String (Option MatchInterval))
    (frames : List Frame) (fuel : ℕ) (chunks : List (List Frame)) (capacity : Option ℕ)
    (N : ℕ) :
    ((offlineRun leftmost (some N) frames fuel).1).length ≤ N ∧
    ((onlineRun leftmost (some N) chunks (onlineInit capacity)).1).emits.length ≤ N :=
  ⟨offlineLoop_emits_le leftmost N frames fuel 0 0 false [] (Nat.le_refl 0) (Nat.zero_le N),
    onlineRun_emits_le leftmost N chunks (onlineInit capacity) (Nat.le_refl 0) (Nat.zero_le N)⟩

/-- **C8.** `Importer::import` fails exactly when the document's version
string differs from the advertised crate version (and then before any frame
is built — the error value carries no frames); with matching versions the
importing always succeeds, whatever the configuration, skip counter, document
contents, and trigonometric interpretation used for oriented boxes. -/
theorem importer_fails_iff_version_mismatch (cosF sinF : ℚ → ℚ) (config : Configuration)
    (count : ℕ) (data : IoDataStream) :
    ((∃ out, importData cosF sinF config count data = .ok out) ↔
      data.version = CARGO_PKG_VERSION) ∧
    ((∃ e, importData cosF sinF config count data = .error e) ↔
      data.version ≠ CARGO_PKG_VERSION) := by
  unfold importData
  by_cases h : data.version = CARGO_PKG_VERSION
  · simp [h]
  · simp [h]

/-- **C5 (divergence).** With `--export` set, the printed line is only the
JSON export: `msg.clear()` wipes the already-formatted `PATH` prefix and
`START..END` interval before the export string is appended, while without
`--export` the same match prints `PATH:START..END` — contradicting the
spec's format `[PATH ":"]? START ".." END [":" JSON_EXPORT]?`. -/
theorem printer_export_line_drops_prefix_and_interval :
    printMatch (fun _ => "JSONEXPORT") [frame0Ex] cfgExportEx = .ok (some "JSONEXPORT") ∧
    printMatch (fun _ => "JSONEXPORT") [frame0Ex] cfgPlainEx = .ok (some "input.json:0..1") :=
  ⟨rfl, rfl⟩

end Strem
